import Mathlib

/-!
Shallow embedding of the cairo-foundry compilation cache and test orchestrator.

Source files embedded:
- src/compile/cache/mod.rs   (cache store: get_cache, read_cache, write_cache,
  dump_json_file, is_valid_cairo_contract, get_cache_path,
  get_compiled_contract_path, create_compiled_contract_path)
- src/cli/commands/test/mod.rs  (orchestrator: TestArgs::exec,
  compile_and_list_entrypoints, run_tests_for_one_file; this file contains
  verbatim clones of the cache-store functions, embedded once below)
- src/cli/commands/test/run.rs  (test_single_entrypoint, purge_hint_buffer,
  run_tests_for_one_file)
- src/cli/commands/test/cache.rs (write_cache, read_cache, Cache,
  create_compiled_contract_path with a root argument)

Rust PathBuf values are modelled as lists of path components (List String).
Machine-level concerns (UTF-8 validity of paths, io error payloads, terminal
coloring) are elided; where that matters it is noted at the definition.
-/

namespace CairoFoundry

/-- A filesystem path, as its list of components (Rust PathBuf). -/
abbrev FPath := List String

/-- Split a file name at its last dot, per Rust Path semantics: the input is
the reversed character list of the name; the result is (reversed extension,
reversed stem). Returns none when the name has no extension, which per Rust
includes the case of a leading dot with no other dot (".foo"). -/
def revSplitDot : List Char → Option (List Char × List Char)
  | [] => none
  | c :: rest =>
    if c = '.' then
      if rest = [] then none else some ([], rest)
    else
      (revSplitDot rest).map (fun p => (c :: p.1, p.2))

/-- Rust Path::file_stem on a single file name component. -/
def fileStemOfName (name : String) : String :=
  match revSplitDot name.toList.reverse with
  | none => name
  | some (_, stemRev) => String.mk stemRev.reverse

/-- Rust Path::extension on a single file name component. -/
def extensionOfName (name : String) : Option String :=
  (revSplitDot name.toList.reverse).map (fun p => String.mk p.1.reverse)

/-- Rust PathBuf::set_extension applied to a file name component: replaces the
extension after the last dot, or appends one when the name has none. -/
def setExtOfName (name ext : String) : String :=
  fileStemOfName name ++ "." ++ ext

/-- Rust Path::file_stem on a path: the stem of its last component. -/
def fileStemOfPath : FPath → Option String
  | [] => none
  | [n] => some (fileStemOfName n)
  | _ :: rest => fileStemOfPath rest

/-- Rust Path::extension on a path: the extension of its last component. -/
def extensionOfPath : FPath → Option String
  | [] => none
  | [n] => extensionOfName n
  | _ :: rest => extensionOfPath rest

/-- Rust PathBuf::set_extension on a path: rewrites the last component,
leaving a path without a file name unchanged. -/
def setExtOfPath (p : FPath) (ext : String) : FPath :=
  match p with
  | [] => []
  | [n] => [setExtOfName n ext]
  | c :: rest => c :: setExtOfPath rest ext

/-- Rust Path::strip_prefix by components: removes root as a component-wise
prefix, failing (StripPrefixError) when it is not a prefix. -/
def stripPrefixComponents : FPath → FPath → Option FPath
  | p, [] => some p
  | [], _ :: _ => none
  | a :: p, b :: r => if a = b then stripPrefixComponents p r else none

/-- Display of a path (Rust to_str / Display), components joined by "/". -/
def pathToString (p : FPath) : String :=
  String.intercalate "/" p

/-- Contents of one file in the modelled filesystem: either raw text bytes
(source files, non-JSON data) or a serialized flat JSON object of string
fields, modelled as its key-value list. -/
inductive FileData
  | text (s : String)
  | jsonObj (kvs : List (String × String))
  deriving DecidableEq, Repr

/-- The filesystem state touched by the cache store: files as an association
list from path to contents (later entries shadowed by earlier ones), and the
set of directories that exist. -/
structure FS where
  files : List (FPath × FileData)
  dirs : List FPath
  deriving DecidableEq, Repr

/-- Read a file's contents, newest write first. -/
def lookupFile (fs : FS) (p : FPath) : Option FileData :=
  (fs.files.find? (fun e => e.1 = p)).map (fun e => e.2)

/-- Overwrite (or create) a file. -/
def writeFile (fs : FS) (p : FPath) (d : FileData) : FS :=
  { fs with files := (p, d) :: fs.files.filter (fun e => !(e.1 = p : Bool)) }

/-- Directory existence test. -/
def FS.dirExists (fs : FS) (p : FPath) : Bool :=
  fs.dirs.contains p

/-- std::fs::create_dir, modelled as always succeeding. -/
def FS.mkdir (fs : FS) (p : FPath) : FS :=
  { fs with dirs := p :: fs.dirs }

/-- CacheError (src/compile/cache/mod.rs:22-54 and
src/cli/commands/test/cache.rs:16-38); io / serde error payloads elided to the
data the embedded functions construct. -/
inductive CacheError
  | StripPrefixErr
  | CacheDirSupported
  | FileNotFound (p : FPath)
  | DeserializeError (msg : String)
  | CacheDirNotSupportedError
  | InvalidContractExtension (p : FPath)
  deriving DecidableEq, Repr

/-- struct Cache (src/compile/cache/mod.rs:56-60, src/cli/commands/test/cache.rs:40-44):
the deserialized cache record, with serde field names "path" and "sha256". -/
structure Cache where
  path : String
  sha256 : String
  deriving DecidableEq, Repr

/-- struct CacheJson (src/compile/cache/mod.rs:72-76, src/cli/commands/test/mod.rs:102-106):
the record as serialized by dump_json_file, with serde field names
"contract_path" and "sha256". -/
structure CacheJson where
  contract_path : String
  sha256 : String
  deriving DecidableEq, Repr

/-- enum CacheStatus (src/compile/cache/mod.rs:62-65). -/
inductive CacheStatus
  | Cached
  | Uncached
  deriving DecidableEq, Repr

/-- struct CompiledCacheFile (src/compile/cache/mod.rs:67-70). -/
structure CompiledCacheFile where
  path : FPath
  status : CacheStatus
  deriving DecidableEq, Repr

/-- Result of a Rust computation that can also panic (expect / unwrap):
ok value, Err value of the Rust Result, or a process-aborting panic with the
expect message. -/
inductive PRes (α : Type) where
  | ok (a : α)
  | err (e : String)
  | panic (msg : String)
  deriving DecidableEq, Repr

/-- read_cache (src/compile/cache/mod.rs:121-126): read_to_string then serde
deserialization into Cache. serde derive(Deserialize) requires the fields
"path" and "sha256" to be present (unknown fields are ignored, a missing
field is an error); raw text that is not a JSON object fails to parse. -/
def read_cache (path : FPath) (fs : FS) : Except CacheError Cache :=
  match lookupFile fs path with
  | none => .error (.FileNotFound path)
  | some (.text _) => .error (.DeserializeError "invalid JSON")
  | some (.jsonObj kvs) =>
    match kvs.lookup "path", kvs.lookup "sha256" with
    | some p, some h => .ok { path := p, sha256 := h }
    | _, _ => .error (.DeserializeError "missing field")

/-- dump_json_file (src/compile/cache/mod.rs:176-182): serde serialization of
a CacheJson value, which emits its Rust field names "contract_path" and
"sha256"; File::create failure is not modelled (writes succeed). -/
def dump_json_file (path : FPath) (data : CacheJson) (fs : FS) : FS :=
  writeFile fs path (.jsonObj [("contract_path", data.contract_path), ("sha256", data.sha256)])

/-- create_compiled_contract_path (src/compile/cache/mod.rs:109-119, cloned at
src/cli/commands/test/mod.rs:177-187): cache_dir / "compiled-cairo-files" /
file_stem, then set_extension("json"). none models the two expect panics
(no file stem, no platform cache directory). -/
def create_compiled_contract_path (cacheDirOpt : Option FPath) (path_to_code : FPath) :
    Option FPath :=
  match fileStemOfPath path_to_code, cacheDirOpt with
  | some filename, some cache_dir =>
    some (cache_dir ++ ["compiled-cairo-files"] ++ [setExtOfName filename "json"])
  | _, _ => none

/-- The record path computed inline by get_cache
(src/compile/cache/mod.rs:188-201): cache_dir / "cairo-foundry-cache" /
(file_stem ++ ".json"). -/
def cacheRecordPath (cacheDirOpt : Option FPath) (path_to_code : FPath) : Option FPath :=
  match fileStemOfPath path_to_code, cacheDirOpt with
  | some filename, some cache_dir =>
    some (cache_dir ++ ["cairo-foundry-cache", filename ++ ".json"])
  | _, _ => none

/-- get_cache (src/compile/cache/mod.rs:184-245; src/cli/commands/test/mod.rs
clones it verbatim as read_cache at lines 197-258). The SHA-256 digest of a
file's bytes (compute_hash, lines 84-91) is abstracted as the function
argument hash applied to the file's contents; dirs::cache_dir() is the
cacheDirOpt argument. -/
def get_cache (hash : FileData → String) (cacheDirOpt : Option FPath)
    (path_to_code : FPath) (fs : FS) : PRes CompiledCacheFile × FS :=
  match cacheDirOpt with
  | none => (.panic "cache dir not supported", fs)
  | some cache_dir =>
    match fileStemOfPath path_to_code with
    | none => (.panic "file stem", fs)
    | some filename =>
      let cache_path0 := cache_dir ++ ["cairo-foundry-cache"]
      let fs1 := if fs.dirExists cache_path0 then fs else fs.mkdir cache_path0
      let cache_path := cache_path0 ++ [filename ++ ".json"]
      let data := read_cache cache_path fs1
      match lookupFile fs1 path_to_code with
      | none => (.panic "Failed to open file", fs1)
      | some content =>
        let hash_calculated := hash content
        let contract_path := pathToString path_to_code
        match data with
        | .ok cache_data =>
          match create_compiled_contract_path (some cache_dir) path_to_code with
          | none => (.panic "File does not have a file stem", fs1)
          | some compiled_contract_path =>
            if cache_data.sha256 = hash_calculated then
              (.ok { path := compiled_contract_path, status := .Cached }, fs1)
            else
              (.ok { path := path_to_code, status := .Uncached },
                dump_json_file cache_path
                  { contract_path := contract_path, sha256 := hash_calculated } fs1)
        | .error _ =>
          (.ok { path := path_to_code, status := .Uncached },
            dump_json_file cache_path
              { contract_path := contract_path, sha256 := hash_calculated } fs1)

/-- is_valid_cairo_contract (src/compile/cache/mod.rs:138-148). -/
def is_valid_cairo_contract (contract_path : FPath) : Except CacheError Unit :=
  match extensionOfPath contract_path with
  | none => .error (.InvalidContractExtension contract_path)
  | some ext =>
    if ext ≠ "cairo" then .error (.InvalidContractExtension contract_path)
    else .ok ()

/-- get_cache_path (src/compile/cache/mod.rs:150-160): a pure path
computation (no hashing, no record io). -/
def get_cache_path (cacheDirOpt : Option FPath) (contract_path root_dir : FPath) :
    Except CacheError FPath :=
  match is_valid_cairo_contract contract_path with
  | .error e => .error e
  | .ok _ =>
    match cacheDirOpt with
    | none => .error .CacheDirNotSupportedError
    | some cache_dir =>
      match stripPrefixComponents contract_path root_dir with
      | none => .error .StripPrefixErr
      | some rel =>
        .ok (setExtOfPath (cache_dir ++ ["cairo-foundry-cache"] ++ rel) "json")

/-- get_compiled_contract_path (src/compile/cache/mod.rs:162-174). -/
def get_compiled_contract_path (cacheDirOpt : Option FPath) (contract_path root_dir : FPath) :
    Except CacheError FPath :=
  match is_valid_cairo_contract contract_path with
  | .error e => .error e
  | .ok _ =>
    match cacheDirOpt with
    | none => .error .CacheDirNotSupportedError
    | some cache_dir =>
      match stripPrefixComponents contract_path root_dir with
      | none => .error .StripPrefixErr
      | some rel =>
        .ok (setExtOfPath (cache_dir ++ ["compiled-cairo-files"] ++ rel) "json")

/-- write_cache (src/cli/commands/test/cache.rs:69-71 and the identical copy
at src/compile/cache/mod.rs:128-130): the body is literally Ok(()). The FS
argument is threaded unchanged to express the frame. -/
def write_cache (_path : FPath) (_cache : Cache) (fs : FS) :
    Except CacheError Unit × FS :=
  (.ok (), fs)

/-- enum TestStatus (src/cli/commands/test/run.rs:36-40). -/
inductive TestStatus
  | SUCCESS
  | FAILURE
  deriving DecidableEq, Repr

/-- struct TestResult (src/cli/commands/test/run.rs:44-47). -/
structure TestResult where
  output : String
  success : TestStatus
  deriving DecidableEq, Repr

/-- VirtualMachineError, restricted to the cases distinguished by
test_single_entrypoint: the CustomHint variant, and every other variant
collapsed to its Debug rendering. -/
inductive VirtualMachineError
  | CustomHint (msg : String)
  | OtherVm (debug : String)
  deriving DecidableEq, Repr

/-- CairoRunError, restricted analogously: the VirtualMachine wrapper, and
every other variant collapsed to its Debug rendering. -/
inductive CairoRunError
  | VirtualMachine (e : VirtualMachineError)
  | OtherRun (debug : String)
  deriving DecidableEq, Repr

/-- The Rust Debug rendering of a CairoRunError, as interpolated verbatim by
the format string "Error: \x7b:?\x7d". -/
def debugRepr : CairoRunError → String
  | .VirtualMachine (.CustomHint m) => "VirtualMachine(CustomHint(" ++ m ++ "))"
  | .VirtualMachine (.OtherVm d) => "VirtualMachine(" ++ d ++ ")"
  | .OtherRun d => d

/-- Result of cairo_run: either the (runner, vm) pair on normal completion,
abstracted as a value of type R, or a CairoRunError. -/
inductive CairoRunResult (R : Type)
  | ok (r : R)
  | error (e : CairoRunError)
  deriving DecidableEq, Repr

/-- Modelled from the spec: the sentinel signal for an expected revert that
was not observed (crate::hints::EXPECT_REVERT_FLAG, whose definition is not
under src); a fixed string distinct from "skip". -/
def EXPECT_REVERT_FLAG : String := "expect_revert"

/-- Modelled from the spec: the Execution Buffer Registry
(crate::hints::output_buffer, not under src) — a process-wide store
correlating an execution identifier with a mutable text buffer; execution
identifiers (Uuid in the code) are modelled as naturals. -/
abbrev Registry := List (Nat × String)

/-- Modelled from the spec: init_buffer opens an empty buffer for the id. -/
def init_buffer (id : Nat) (reg : Registry) : Registry :=
  (id, "") :: reg

/-- Modelled from the spec: get_buffer looks the id up in the registry. -/
def get_buffer (id : Nat) : Registry → Option String
  | [] => none
  | (i, b) :: rest => if i = id then some b else get_buffer id rest

/-- Modelled from the spec: the hooks bound to an execution id append the
instrumentation text to that id's buffer (first live entry). -/
def append_buffer (id : Nat) (t : String) : Registry → Registry
  | [] => []
  | (i, b) :: rest =>
    if i = id then (i, b ++ t) :: rest else (i, b) :: append_buffer id t rest

/-- Modelled from the spec: clear_buffer removes the id's entry (the spec's
drainAndClear removes the drained entry). -/
def clear_buffer (id : Nat) : Registry → Registry
  | [] => []
  | (i, b) :: rest =>
    if i = id then rest else (i, b) :: clear_buffer id rest

/-- purge_hint_buffer (src/cli/commands/test/run.rs:58-65): drain the id's
buffer into the output under a "captured stdout" section unless it is empty,
then clear it. The unwrap is safe because init_buffer ran before; an absent
id yields the empty buffer here. -/
def purge_hint_buffer (execution_uuid : Nat) (output : String) (reg : Registry) :
    String × Registry :=
  let buffer := (get_buffer execution_uuid reg).getD ""
  ((if buffer ≠ "" then output ++ "[captured stdout]:\n" ++ buffer else output),
   clear_buffer execution_uuid reg)

/-- The classification match of test_single_entrypoint
(src/cli/commands/test/run.rs:87-122): maps the VM result to the retained
runner (present only on normal completion), the test status, and the log
line pushed for this entrypoint. The first CustomHint guard tests for
"skip", the second for EXPECT_REVERT_FLAG; any other error (including other
CustomHint messages) falls to the last arm with its Debug rendering. -/
def classify {R : Type} (test_entrypoint : String) (duration : Nat) :
    CairoRunResult R → Option R × TestStatus × String
  | .ok r =>
    (some r, TestStatus.SUCCESS,
      "[OK] " ++ test_entrypoint ++ " (" ++ toString duration ++ ")\n")
  | .error (.VirtualMachine (.CustomHint m)) =>
    if m = "skip" then
      (none, TestStatus.SUCCESS, "[SKIPPED] " ++ test_entrypoint ++ "\n")
    else if m = EXPECT_REVERT_FLAG then
      (none, TestStatus.FAILURE,
        "[FAILED] " ++ test_entrypoint ++
          "\nError: execution did not revert while expect_revert() was specified\n\n")
    else
      (none, TestStatus.FAILURE,
        "[FAILED] " ++ test_entrypoint ++ "\nError: " ++
          debugRepr (.VirtualMachine (.CustomHint m)) ++ "\n\n")
  | .error e =>
    (none, TestStatus.FAILURE,
      "[FAILED] " ++ test_entrypoint ++ "\nError: " ++ debugRepr e ++ "\n\n")

/-- The text purge_hint_buffer contributes for a drained buffer content:
a "captured stdout" section, skipped when the buffer is empty. -/
def captureSection (t : String) : String :=
  if t ≠ "" then "[captured stdout]:\n" ++ t else ""

/-- The text the secondary result channel contributes on normal completion
(run.rs:131-142): the runner output under an "execution output" section when
present; a fetch failure only logs to stderr and contributes nothing. -/
def execOutputSection (g : Except String String) : String :=
  match g with
  | .ok runner_output =>
    if runner_output ≠ "" then "[execution output]:\n" ++ runner_output else ""
  | .error _ => ""

/-- test_single_entrypoint (src/cli/commands/test/run.rs:71-146; cloned at
src/cli/commands/test/mod.rs:273-348). External collaborators are arguments:
fromJson is Program::from_json (its error collapsed to a string), vmRun is
cairo_run returning the VM result together with the instrumentation text the
hooks bound to the execution id append to its buffer, getOutput is
runner.get_output, duration the elapsed wall clock. Terminal coloring is
elided. -/
def test_single_entrypoint {PJ Prog R : Type}
    (fromJson : PJ → String → Except String Prog)
    (vmRun : Prog → Nat → CairoRunResult R × String)
    (getOutput : R → Except String String)
    (duration : Nat)
    (program_json : PJ) (test_entrypoint : String)
    (execution_uuid : Nat) (reg : Registry) (max_steps : Nat) :
    Except String TestResult × Registry :=
  let reg1 := init_buffer execution_uuid reg
  match fromJson program_json test_entrypoint with
  | .error e => (.error e, reg1)
  | .ok program =>
    let (res_cairo_run, hookText) := vmRun program max_steps
    let reg2 := append_buffer execution_uuid hookText reg1
    match classify test_entrypoint duration res_cairo_run with
    | (opt_runner, test_success, out1) =>
      let (out2, reg3) := purge_hint_buffer execution_uuid out1 reg2
      match opt_runner with
      | none => (.ok { output := out2, success := test_success }, reg3)
      | some r =>
        let out3 :=
          match getOutput r with
          | .ok runner_output =>
            if runner_output ≠ "" then
              out2 ++ "[execution output]:\n" ++ runner_output
            else out2
          | .error _ => out2
        (.ok { output := out3 ++ "\n", success := test_success }, reg3)

/-- The tail of the outcome log after the capture section: the secondary
result channel plus the closing newline, present only when a runner was
retained (normal completion). -/
def tailLog {R : Type} (getOutput : R → Except String String) : Option R → String
  | none => ""
  | some r => execOutputSection (getOutput r) ++ "\n"

/-- Concatenation of the outputs of a list of test results. -/
def concatOutputs : List TestResult → String
  | [] => ""
  | r :: rest => r.output ++ concatOutputs rest

/-- One step of the fold of run_tests_for_one_file
(src/cli/commands/test/run.rs:175-185): concatenate outputs; the accumulated
status stays SUCCESS only while both it and the next result are SUCCESS. -/
def accStep (a b : TestResult) : TestResult :=
  { output := a.output ++ b.output,
    success :=
      if a.success = TestStatus.SUCCESS ∧ b.success = TestStatus.SUCCESS then
        TestStatus.SUCCESS
      else TestStatus.FAILURE }

/-- The fold of run_tests_for_one_file (run.rs:175-185), started from the
header line and status SUCCESS. -/
def foldOutcomes (init : String) (rs : List TestResult) : TestResult :=
  rs.foldl accStep { output := init, success := TestStatus.SUCCESS }

/-- The collect step of run_tests_for_one_file (run.rs:162-173): Rust
collect::<Result<Vec<_>, _>>() over a lazy map, stopping at the first Err
without running later entrypoints. -/
def collectResults (step : String → Except String TestResult) :
    List String → Except String (List TestResult)
  | [] => .ok []
  | ep :: rest =>
    match step ep with
    | .error e => .error e
    | .ok r =>
      match collectResults step rest with
      | .error e => .error e
      | .ok rs => .ok (r :: rs)

/-- run_tests_for_one_file (src/cli/commands/test/run.rs:153-186; the clone
at mod.rs:355-392 additionally opens and deserializes the compiled file).
step stands for test_single_entrypoint applied to its collaborators, the
shared program json and a fresh execution id. -/
def run_tests_for_one_file (step : String → Except String TestResult)
    (path_to_original : String) (test_entrypoints : List String) :
    Except String TestResult :=
  match collectResults step test_entrypoints with
  | .error e => .error e
  | .ok rs =>
    .ok (foldOutcomes ("Running tests in file " ++ path_to_original ++ "\n") rs)

/-- compile_and_list_entrypoints (src/cli/commands/test/mod.rs:148-175;
identical copy at src/compile/cache/mod.rs:247-274). compileFn is the
external compiler returning the compiled path, listFn the external
entrypoint lister; the Cached-branch println and the Err-branch eprintln are
elided. Both expect calls panic, modelled by PRes.panic. -/
def compile_and_list_entrypoints
    (compileFn : FPath → Except String FPath)
    (listFn : FPath → Except String (List String)) :
    Except String CompiledCacheFile → PRes (Option (FPath × FPath × List String))
  | .error _ => .ok none
  | .ok cache =>
    match cache.status with
    | .Cached =>
      match listFn cache.path with
      | .error _ => .panic "Failed to list entrypoints"
      | .ok entrypoints => .ok (some (cache.path, cache.path, entrypoints))
    | .Uncached =>
      match compileFn cache.path with
      | .error _ => .panic "Failed to compile"
      | .ok compiled_path =>
        match listFn compiled_path with
        | .error _ => .panic "Failed to list entrypoints"
        | .ok entrypoints => .ok (some (cache.path, compiled_path, entrypoints))

/-- The per-file loop of TestArgs::exec (src/cli/commands/test/mod.rs:400-420):
map the cache step, filter_map compile_and_list_entrypoints, run the file's
tests, and for_each print either the result output or "Error: ..". Returns
the printed report lines in processing order; a panic in any step aborts the
whole batch. cacheStep stands for the read_cache call at mod.rs:403 (the
get_cache clone) and runFile for run_tests_for_one_file with its
collaborators. -/
def execGo (cacheStep : FPath → FS → PRes CompiledCacheFile × FS)
    (candlStep : Except String CompiledCacheFile → PRes (Option (FPath × FPath × List String)))
    (runFile : FPath → FPath → List String → Except String TestResult) :
    List FPath → FS → PRes (List String)
  | [], _ => .ok []
  | f :: rest, fs =>
    let afterCandl : PRes (Option (FPath × FPath × List String)) × FS :=
      match cacheStep f fs with
      | (.panic m, fsx) => (.panic m, fsx)
      | (.ok c, fsx) => (candlStep (.ok c), fsx)
      | (.err e, fsx) => (candlStep (.error e), fsx)
    match afterCandl with
    | (.panic m, _) => .panic m
    | (.err e, _) => .err e
    | (.ok none, fsx) => execGo cacheStep candlStep runFile rest fsx
    | (.ok (some (path_to_original, path_to_compiled, entrypoints)), fsx) =>
      let line :=
        match runFile path_to_original path_to_compiled entrypoints with
        | .ok result => result.output
        | .error e => "Error: " ++ e
      match execGo cacheStep candlStep runFile rest fsx with
      | .panic m => .panic m
      | .err e => .err e
      | .ok lines => .ok (line :: lines)

/-- TestArgs::exec (src/cli/commands/test/mod.rs:394-424): list the test
files (the ? at line 400 propagates a listing failure), run the per-file
loop, and return Ok(TestOutput::default()) — the empty output — alongside
the printed report lines. -/
def execTest (cacheStep : FPath → FS → PRes CompiledCacheFile × FS)
    (candlStep : Except String CompiledCacheFile → PRes (Option (FPath × FPath × List String)))
    (runFile : FPath → FPath → List String → Except String TestResult)
    (filesListing : Except String (List FPath)) (fs0 : FS) :
    PRes (List String × String) :=
  match filesListing with
  | .error e => .err e
  | .ok files =>
    match execGo cacheStep candlStep runFile files fs0 with
    | .panic m => .panic m
    | .err e => .err e
    | .ok lines => .ok (lines, "")

/-! Concrete instances used by the closed evaluation theorems below. -/

/-- A concrete stand-in for the SHA-256 digest: a deterministic function of
the file contents (the only property of compute_hash the code relies on). -/
def demoHash : FileData → String
  | .text s => "h-" ++ s
  | .jsonObj _ => "h-json"

/-- A concrete platform cache directory. -/
def demoCacheDir : FPath := ["c"]

/-- Source file r/a/foo.cairo. -/
def srcA : FPath := ["r", "a", "foo.cairo"]

/-- Source file r/b/foo.cairo: distinct from srcA, same file stem. -/
def srcB : FPath := ["r", "b", "foo.cairo"]

/-- The single record path both srcA and srcB are mapped to. -/
def recAB : FPath := ["c", "cairo-foundry-cache", "foo.json"]

/-- Filesystem holding both source files and no cache records. -/
def fsAB : FS := { files := [(srcA, .text "v1"), (srcB, .text "v2")], dirs := [] }

/-- Filesystem for the staleness scenario: srcA present with contents "v1"
(current hash "h-v1") and a readable record in the reader's schema (field
"path") carrying the outdated hash "h0". -/
def fsStale : FS :=
  { files := [(srcA, .text "v1"),
              (recAB, .jsonObj [("path", "r/a/foo.cairo"), ("sha256", "h0")])],
    dirs := [["c", "cairo-foundry-cache"]] }

/-- Filesystem with a readable record whose hash matches the current
contents of srcA. -/
def fsHit : FS :=
  { files := [(srcA, .text "v1"),
              (recAB, .jsonObj [("path", "r/a/foo.cairo"), ("sha256", "h-v1")])],
    dirs := [["c", "cairo-foundry-cache"]] }

/-- Filesystem holding only the non-cairo source file foo.txt. -/
def fsTxt : FS := { files := [(["foo.txt"], .text "v")], dirs := [] }

/-- An external compiler that always fails. -/
def cfFail : FPath → Except String FPath := fun _ => .error "compiler exploded"

/-- An entrypoint lister that always succeeds with no entrypoints. -/
def lfEmpty : FPath → Except String (List String) := fun _ => .ok []

/-- An external compiler that succeeds, returning the source path itself. -/
def cfId : FPath → Except String FPath := fun p => .ok p

/-- An entrypoint lister that reports the single entrypoint t1. -/
def lfOne : FPath → Except String (List String) := fun _ => .ok ["t1"]

/-- A per-file runner whose single test fails. -/
def rfFail : FPath → FPath → List String → Except String TestResult :=
  fun _ _ _ => .ok { output := "[FAILED] t1\n", success := .FAILURE }

/-- A cache step that reports every file as cached at its own path. -/
def demoCs : FPath → FS → PRes CompiledCacheFile × FS :=
  fun f fs => (.ok { path := f, status := .Cached }, fs)

/-- A compile-and-list step that lists one entrypoint for every decision. -/
def demoCl : Except String CompiledCacheFile → PRes (Option (FPath × FPath × List String))
  | .ok c => .ok (some (c.path, c.path, ["t"]))
  | .error _ => .ok none

/-- A per-file runner with a fixed failing report. -/
def demoRf : FPath → FPath → List String → Except String TestResult :=
  fun _ _ _ => .ok { output := "out\n", success := .FAILURE }

/-- A deserializer that always succeeds (program json and program modelled
as Unit). -/
def fj0 : Unit → String → Except String Unit := fun _ _ => .ok ()

/-- A VM run that completes normally and appends "cap" to the buffer. -/
def vmOk0 : Unit → Nat → CairoRunResult Unit × String :=
  fun _ _ => (.ok (), "cap")

/-- A VM run that raises the skip sentinel, appending nothing. -/
def vmSkip0 : Unit → Nat → CairoRunResult Unit × String :=
  fun _ _ => (.error (.VirtualMachine (.CustomHint "skip")), "")

/-- A VM run that fails with a generic error and appends "x". -/
def vmFail0 : Unit → Nat → CairoRunResult Unit × String :=
  fun _ _ => (.error (.OtherRun "boom"), "x")

/-- A secondary-channel reader returning the fixed runner output "out". -/
def gOut0 : Unit → Except String String := fun _ => .ok "out"

/-! Helper lemmas shared by the claim theorems. -/

/-- Purging a registry whose head entry is the execution's own buffer drains
exactly that buffer into a capture section and restores the tail. -/
theorem purge_capture (uuid : Nat) (out t : String) (reg : Registry) :
    purge_hint_buffer uuid out ((uuid, t) :: reg) = (out ++ captureSection t, reg) := by
  simp only [purge_hint_buffer, get_buffer, clear_buffer, if_pos rfl, Option.getD_some,
    captureSection]
  by_cases h : t = ""
  · simp [h, String.append_empty]
  · simp [h, String.append_assoc]

/-- Closed form of test_single_entrypoint when program deserialization
succeeds: the classification log, then the captured-output section holding
exactly the text the hooks appended during this run, then the
normal-completion tail; the registry is restored to its prior state. -/
theorem tse_eq {PJ Prog R : Type}
    (fromJson : PJ → String → Except String Prog)
    (vmRun : Prog → Nat → CairoRunResult R × String)
    (getOutput : R → Except String String)
    (duration : Nat) (pj : PJ) (ep : String) (uuid : Nat) (reg : Registry)
    (ms : Nat) (prog : Prog)
    (hfj : fromJson pj ep = .ok prog) :
    test_single_entrypoint fromJson vmRun getOutput duration pj ep uuid reg ms =
      (.ok { output := (classify ep duration (vmRun prog ms).1).2.2 ++
                captureSection (vmRun prog ms).2 ++
                tailLog getOutput (classify ep duration (vmRun prog ms).1).1,
             success := (classify ep duration (vmRun prog ms).1).2.1 },
       reg) := by
  rcases hvm : vmRun prog ms with ⟨res, t⟩
  rcases hcl : classify ep duration res with ⟨optR, st, out1⟩
  simp only [test_single_entrypoint, hfj, hvm, init_buffer, append_buffer, if_pos rfl,
    String.empty_append, hcl, purge_capture]
  cases optR with
  | none => simp [purge_capture, tailLog, String.append_empty, String.append_assoc]
  | some r =>
    simp only [tailLog, execOutputSection]
    cases hg : getOutput r with
    | error e => simp [purge_capture, String.append_empty, String.append_assoc]
    | ok s =>
      by_cases hs : s = ""
      · simp [hs, purge_capture, String.append_empty, String.append_assoc]
      · simp [hs, purge_capture, String.append_empty, String.append_assoc]

/-- Collecting over a map whose steps all succeed yields the mapped list
(no short-circuit). -/
theorem collectResults_ok (stepR : String → TestResult) (eps : List String) :
    collectResults (fun ep => .ok (stepR ep)) eps = .ok (eps.map stepR) := by
  induction eps with
  | nil => rfl
  | cons ep rest ih => simp [collectResults, ih]

/-- The folded status is SUCCESS exactly when the accumulator is SUCCESS and
every folded result is SUCCESS. -/
theorem foldl_accStep_success (rs : List TestResult) (a : TestResult) :
    (rs.foldl accStep a).success = TestStatus.SUCCESS ↔
      (a.success = TestStatus.SUCCESS ∧ ∀ r ∈ rs, r.success = TestStatus.SUCCESS) := by
  induction rs generalizing a with
  | nil => simp
  | cons r rest ih =>
    rw [List.foldl_cons, ih]
    by_cases h : a.success = TestStatus.SUCCESS ∧ r.success = TestStatus.SUCCESS
    · simp [accStep, h.1, h.2]
    · simp only [accStep, if_neg h, List.mem_cons]
      constructor
      · rintro ⟨hF, -⟩; simp at hF
      · rintro ⟨ha, hall⟩
        exact absurd ⟨ha, hall r (Or.inl rfl)⟩ h

/-- The folded output is the accumulator's output followed by every folded
result's output in order. -/
theorem foldl_accStep_output (rs : List TestResult) (a : TestResult) :
    (rs.foldl accStep a).output = a.output ++ concatOutputs rs := by
  induction rs generalizing a with
  | nil => simp [concatOutputs, String.append_empty]
  | cons r rest ih =>
    simp [accStep, ih, concatOutputs, String.append_assoc]

/-- Creating a directory does not change file contents. -/
theorem lookupFile_mkdir (fs : FS) (d p : FPath) :
    lookupFile (FS.mkdir fs d) p = lookupFile fs p := rfl

/-- Creating a directory does not change what a record read returns. -/
theorem read_cache_mkdir (q : FPath) (fs : FS) (d : FPath) :
    read_cache q (FS.mkdir fs d) = read_cache q fs := rfl

/-- Reading back a freshly written file yields what was written. -/
theorem lookupFile_writeFile_self (fs : FS) (p : FPath) (d : FileData) :
    lookupFile (writeFile fs p d) p = some d := by
  simp [lookupFile, writeFile, List.find?]

/-- The ensure-directory step of get_cache does not change file contents. -/
theorem lookupFile_ite (c : Prop) [Decidable c] (fs : FS) (d q : FPath) :
    lookupFile (if c then fs else FS.mkdir fs d) q = lookupFile fs q := by
  split <;> rfl

/-- The ensure-directory step of get_cache does not change record reads. -/
theorem read_cache_ite (c : Prop) [Decidable c] (q : FPath) (fs : FS) (d : FPath) :
    read_cache q (if c then fs else FS.mkdir fs d) = read_cache q fs := by
  split <;> rfl

/-- On a file with a stem whose contents are readable, get_cache never
panics and never propagates an error: it always reaches a decision. -/
theorem get_cache_total (hash : FileData → String) (cache_dir p : FPath) (fs : FS)
    (filename : String) (content : FileData)
    (hstem : fileStemOfPath p = some filename)
    (hsrc : lookupFile fs p = some content) :
    ∃ c, (get_cache hash (some cache_dir) p fs).1 = PRes.ok c := by
  simp only [get_cache, hstem, lookupFile_ite, read_cache_ite, hsrc]
  rcases hr : read_cache (cache_dir ++ ["cairo-foundry-cache"] ++ [filename ++ ".json"]) fs with
    e | cdta
  · simp only [hr]
    exact ⟨_, rfl⟩
  · simp only [hr, create_compiled_contract_path, hstem]
    by_cases hh : cdta.sha256 = hash content
    · simp only [if_pos hh]
      exact ⟨_, rfl⟩
    · simp only [if_neg hh]
      exact ⟨_, rfl⟩

/-! Claim theorems. -/

/-- C10: for every path and cache value, the exported cache-record writing
operation write_cache returns Ok(()) and performs no write at all — the
filesystem state is returned unchanged (an unconditional no-op). -/
theorem write_cache_noop (p : FPath) (c : Cache) (fs : FS) :
    write_cache p c fs = (.ok (), fs) := rfl

/-- C1, as the code behaves: the cache-decision operation get_cache and the
artifact-path function create_compiled_contract_path key both paths by the
bare file stem, so the two distinct source files r/a/foo.cairo and
r/b/foo.cairo under the root r are mapped to the one record path
c/cairo-foundry-cache/foo.json and the one artifact path
c/compiled-cairo-files/foo.json; running the decision on the second source
overwrites the record the first decision just wrote at that shared path.
This refutes the claimed no-collision invariant (the determinism half of
the claim holds, both paths being functions of the source path alone). -/
theorem cache_key_stem_collision :
    srcA ≠ srcB ∧
    cacheRecordPath (some demoCacheDir) srcA = cacheRecordPath (some demoCacheDir) srcB ∧
    create_compiled_contract_path (some demoCacheDir) srcA =
      create_compiled_contract_path (some demoCacheDir) srcB ∧
    lookupFile (get_cache demoHash (some demoCacheDir) srcA fsAB).2 recAB =
      some (.jsonObj [("contract_path", "r/a/foo.cairo"), ("sha256", "h-v1")]) ∧
    lookupFile (get_cache demoHash (some demoCacheDir) srcB
        (get_cache demoHash (some demoCacheDir) srcA fsAB).2).2 recAB =
      some (.jsonObj [("contract_path", "r/b/foo.cairo"), ("sha256", "h-v2")]) := by
  refine ⟨by decide, rfl, rfl, rfl, rfl⟩

/-- C4, as the code behaves: with a readable record (reader schema, field
"path") holding the outdated hash "h0" while the file hashes to "h-v1",
the decision returns Stale/Uncached carrying the source path and overwrites
the record with the new hash — but it serializes the record through struct
CacheJson, whose field is named "contract_path", while read_cache
deserializes struct Cache, which requires a field named "path"; so the
rewritten record never parses again and the very next decision on the
unchanged file is again Stale/Uncached, not Cached. For contrast, the last
conjunct shows a record in the reader schema with the matching hash does
yield Cached. -/
theorem stale_record_rewrite_unreadable :
    (get_cache demoHash (some demoCacheDir) srcA fsStale).1 =
      .ok { path := srcA, status := .Uncached } ∧
    lookupFile (get_cache demoHash (some demoCacheDir) srcA fsStale).2 recAB =
      some (.jsonObj [("contract_path", "r/a/foo.cairo"), ("sha256", "h-v1")]) ∧
    (get_cache demoHash (some demoCacheDir) srcA
        (get_cache demoHash (some demoCacheDir) srcA fsStale).2).1 =
      .ok { path := srcA, status := .Uncached } ∧
    (get_cache demoHash (some demoCacheDir) srcA fsHit).1 =
      .ok { path := ["c", "compiled-cairo-files", "foo.json"], status := .Cached } := by
  refine ⟨rfl, rfl, rfl, rfl⟩

/-- C8 counterexample: the decision operation get_cache does not fail with
an invalid-extension error on the non-cairo path foo.txt — it hashes the
file, writes a record, and returns a decision; only the helper
is_valid_cairo_contract (which get_cache never calls) rejects the path. -/
theorem get_cache_no_extension_check_cex :
    (get_cache demoHash (some demoCacheDir) ["foo.txt"] fsTxt).1 =
      .ok { path := ["foo.txt"], status := .Uncached } ∧
    is_valid_cairo_contract ["foo.txt"] = .error (.InvalidContractExtension ["foo.txt"]) := by
  refine ⟨rfl, rfl⟩

/-- C8 amended: the path-derivation helpers get_cache_path and
get_compiled_contract_path fail with InvalidContractExtension for every
path not carrying the cairo extension, before any hashing or record io
(they are pure path computations and perform none); but the decision
operation get_cache itself performs no extension validation and reaches a
decision on any readable path with a file stem. -/
theorem invalid_extension_amended (p root_dir : FPath) (cdOpt : Option FPath)
    (hext : extensionOfPath p ≠ some "cairo") :
    is_valid_cairo_contract p = .error (.InvalidContractExtension p) ∧
    get_cache_path cdOpt p root_dir = .error (.InvalidContractExtension p) ∧
    get_compiled_contract_path cdOpt p root_dir = .error (.InvalidContractExtension p) ∧
    ∀ (hash : FileData → String) (cache_dir : FPath) (fs : FS)
      (filename : String) (content : FileData),
      fileStemOfPath p = some filename → lookupFile fs p = some content →
      ∃ c, (get_cache hash (some cache_dir) p fs).1 = PRes.ok c := by
  have hval : is_valid_cairo_contract p = .error (.InvalidContractExtension p) := by
    unfold is_valid_cairo_contract
    cases hx : extensionOfPath p with
    | none => rfl
    | some ext =>
      have hne : ext ≠ "cairo" := fun hc => hext (by rw [hx, hc])
      simp [hne]
  refine ⟨hval, ?_, ?_, ?_⟩
  · simp [get_cache_path, hval]
  · simp [get_compiled_contract_path, hval]
  · intro hash cache_dir fs filename content hstem hsrc
    exact get_cache_total hash cache_dir p fs filename content hstem hsrc

/-- C8 amended witness: the helpers reject foo.txt while get_cache reaches
a decision on it. -/
theorem invalid_extension_amended_w :
    is_valid_cairo_contract ["foo.txt"] = .error (.InvalidContractExtension ["foo.txt"]) ∧
    get_cache_path (some demoCacheDir) ["foo.txt"] [] =
      .error (.InvalidContractExtension ["foo.txt"]) ∧
    get_compiled_contract_path (some demoCacheDir) ["foo.txt"] [] =
      .error (.InvalidContractExtension ["foo.txt"]) ∧
    ∃ c, (get_cache demoHash (some demoCacheDir) ["foo.txt"] fsTxt).1 = PRes.ok c := by
  have h := invalid_extension_amended ["foo.txt"] [] (some demoCacheDir) (by decide)
  exact ⟨h.1, h.2.1, h.2.2.1,
    h.2.2.2 demoHash demoCacheDir fsTxt "foo" (.text "v") (by decide) (by decide)⟩

/-- C2 counterexample: when the external compiler fails on a stale file,
compile_and_list_entrypoints panics (the expect at mod.rs:164), aborting the
whole batch: no Failed file report is recorded and the remaining files of
the batch are not processed (second conjunct, with a second file queued). -/
theorem compiler_failure_panics_cex :
    compile_and_list_entrypoints cfFail lfEmpty
        (.ok { path := ["t.cairo"], status := .Uncached }) = .panic "Failed to compile" ∧
    execGo (fun _ fs => (.ok { path := ["t.cairo"], status := .Uncached }, fs))
        (compile_and_list_entrypoints cfFail lfEmpty)
        (fun _ _ _ => .ok { output := "", success := .SUCCESS })
        [["t.cairo"], ["u.cairo"]] fsTxt = .panic "Failed to compile" := by
  refine ⟨rfl, rfl⟩

/-- C2 amended: a failure of the cache step is printed and the file simply
skipped, and the batch continues with the remaining files; but a compiler
failure on a stale file, or an entrypoint-listing failure, panics with the
corresponding expect message, aborting the whole batch — no Failed
FileReport is recorded for the file. -/
theorem per_file_error_handling_amended :
    (∀ (cf : FPath → Except String FPath) (lf : FPath → Except String (List String))
      (e : String), compile_and_list_entrypoints cf lf (.error e) = .ok none) ∧
    (∀ (cf : FPath → Except String FPath) (lf : FPath → Except String (List String))
      (p : FPath) (m : String), cf p = .error m →
      compile_and_list_entrypoints cf lf (.ok { path := p, status := .Uncached }) =
        .panic "Failed to compile") ∧
    (∀ (cf : FPath → Except String FPath) (lf : FPath → Except String (List String))
      (p : FPath) (m : String), lf p = .error m →
      compile_and_list_entrypoints cf lf (.ok { path := p, status := .Cached }) =
        .panic "Failed to list entrypoints") ∧
    (∀ (cs : FPath → FS → PRes CompiledCacheFile × FS)
      (cf : FPath → Except String FPath) (lf : FPath → Except String (List String))
      (rf : FPath → FPath → List String → Except String TestResult)
      (f : FPath) (rest : List FPath) (fs fs2 : FS) (e : String),
      cs f fs = (.err e, fs2) →
      execGo cs (compile_and_list_entrypoints cf lf) rf (f :: rest) fs =
        execGo cs (compile_and_list_entrypoints cf lf) rf rest fs2) := by
  refine ⟨fun cf lf e => rfl, ?_, ?_, ?_⟩
  · intro cf lf p m h
    simp [compile_and_list_entrypoints, h]
  · intro cf lf p m h
    simp [compile_and_list_entrypoints, h]
  · intro cs cf lf rf f rest fs fs2 e h
    simp [execGo, h, compile_and_list_entrypoints]

/-- C2 amended witness: concrete instances of all four behaviours. -/
theorem per_file_error_handling_amended_w :
    compile_and_list_entrypoints cfFail lfEmpty (.error "cache boom") = .ok none ∧
    compile_and_list_entrypoints cfFail lfEmpty
        (.ok { path := ["t.cairo"], status := .Uncached }) = .panic "Failed to compile" ∧
    compile_and_list_entrypoints cfId cfFail
        (.ok { path := ["t.cairo"], status := .Cached }) =
      .panic "Failed to list entrypoints" ∧
    execGo (fun _ fs => (.err "cache boom", fs)) (compile_and_list_entrypoints cfFail lfEmpty)
        rfFail [["t.cairo"]] fsTxt =
      execGo (fun _ fs => (.err "cache boom", fs)) (compile_and_list_entrypoints cfFail lfEmpty)
        rfFail [] fsTxt :=
  ⟨per_file_error_handling_amended.1 cfFail lfEmpty "cache boom",
   per_file_error_handling_amended.2.1 cfFail lfEmpty ["t.cairo"] "compiler exploded" rfl,
   per_file_error_handling_amended.2.2.1 cfId cfFail ["t.cairo"] "compiler exploded" rfl,
   per_file_error_handling_amended.2.2.2 (fun _ fs => (.err "cache boom", fs)) cfFail lfEmpty
     rfFail ["t.cairo"] [] fsTxt fsTxt "cache boom" rfl⟩

/-- C7: a file report folded by run_tests_for_one_file has status SUCCESS
exactly when every per-entrypoint outcome has status SUCCESS (Skipped
outcomes carry status SUCCESS, see the classification), and its output is
the header followed by every outcome's output in order — a Failed outcome
forces FAILURE without preventing the remaining entrypoints from being
processed and reported. -/
theorem file_status_aggregation (stepR : String → TestResult)
    (path_to_original : String) (eps : List String) :
    run_tests_for_one_file (fun ep => .ok (stepR ep)) path_to_original eps =
      .ok (foldOutcomes ("Running tests in file " ++ path_to_original ++ "\n")
        (eps.map stepR)) ∧
    ((foldOutcomes ("Running tests in file " ++ path_to_original ++ "\n")
        (eps.map stepR)).success = TestStatus.SUCCESS ↔
      ∀ ep ∈ eps, (stepR ep).success = TestStatus.SUCCESS) ∧
    (foldOutcomes ("Running tests in file " ++ path_to_original ++ "\n")
        (eps.map stepR)).output =
      "Running tests in file " ++ path_to_original ++ "\n" ++
        concatOutputs (eps.map stepR) := by
  refine ⟨?_, ?_, ?_⟩
  · simp [run_tests_for_one_file, collectResults_ok]
  · rw [foldOutcomes, foldl_accStep_success]
    simp
  · rw [foldOutcomes, foldl_accStep_output]

/-- C5: when the cache record for a readable source file is absent or
unreadable or unparseable (any read_cache error), the decision treats it as
a miss: it writes a fresh record carrying the current content hash, returns
the Stale/Uncached decision carrying the source path, and reaches that
decision rather than aborting. -/
theorem corrupt_record_is_miss (hash : FileData → String) (cache_dir p : FPath)
    (fs : FS) (filename : String) (content : FileData) (e : CacheError)
    (hstem : fileStemOfPath p = some filename)
    (hsrc : lookupFile fs p = some content)
    (hrec : read_cache (cache_dir ++ ["cairo-foundry-cache"] ++ [filename ++ ".json"]) fs =
      .error e) :
    (get_cache hash (some cache_dir) p fs).1 =
      .ok { path := p, status := .Uncached } ∧
    lookupFile (get_cache hash (some cache_dir) p fs).2
        (cache_dir ++ ["cairo-foundry-cache"] ++ [filename ++ ".json"]) =
      some (.jsonObj [("contract_path", pathToString p), ("sha256", hash content)]) := by
  simp only [get_cache, hstem, lookupFile_ite, read_cache_ite, hsrc, hrec]
  refine ⟨trivial, ?_⟩
  exact lookupFile_writeFile_self _ _ _

/-- C5 witness: on a filesystem with no record for r/a/foo.cairo, the
decision is Uncached and a fresh record with the current hash is written. -/
theorem corrupt_record_is_miss_w :
    (get_cache demoHash (some demoCacheDir) srcA fsAB).1 =
      .ok { path := srcA, status := .Uncached } ∧
    lookupFile (get_cache demoHash (some demoCacheDir) srcA fsAB).2
        (demoCacheDir ++ ["cairo-foundry-cache"] ++ ["foo" ++ ".json"]) =
      some (.jsonObj [("contract_path", pathToString srcA),
        ("sha256", demoHash (.text "v1"))]) :=
  corrupt_record_is_miss demoHash demoCacheDir srcA fsAB "foo" (.text "v1")
    (.FileNotFound (demoCacheDir ++ ["cairo-foundry-cache"] ++ ["foo" ++ ".json"]))
    (by decide) (by decide) rfl

/-- C3: the VM result of a single-entrypoint execution is classified into
exactly one outcome — normal completion yields SUCCESS with the elapsed
duration in the log; the sentinel custom-hint "skip" yields SUCCESS logged
as SKIPPED; the sentinel expected-revert flag yields FAILURE with its fixed
diagnostic distinct from a generic VM error; any other VM error yields
FAILURE with the Debug rendering of the diagnostic attached verbatim. -/
theorem vm_outcome_classification {PJ Prog R : Type}
    (fromJson : PJ → String → Except String Prog)
    (vmRun : Prog → Nat → CairoRunResult R × String)
    (getOutput : R → Except String String)
    (duration : Nat) (pj : PJ) (ep : String) (uuid : Nat) (reg : Registry)
    (ms : Nat) (prog : Prog) (res : CairoRunResult R) (t : String)
    (hfj : fromJson pj ep = .ok prog)
    (hvm : vmRun prog ms = (res, t)) :
    (∀ r : R, res = .ok r →
      (test_single_entrypoint fromJson vmRun getOutput duration pj ep uuid reg ms).1 =
        .ok { output := "[OK] " ++ ep ++ " (" ++ toString duration ++ ")\n" ++
                captureSection t ++ execOutputSection (getOutput r) ++ "\n",
              success := TestStatus.SUCCESS }) ∧
    (res = .error (.VirtualMachine (.CustomHint "skip")) →
      (test_single_entrypoint fromJson vmRun getOutput duration pj ep uuid reg ms).1 =
        .ok { output := "[SKIPPED] " ++ ep ++ "\n" ++ captureSection t,
              success := TestStatus.SUCCESS }) ∧
    (res = .error (.VirtualMachine (.CustomHint EXPECT_REVERT_FLAG)) →
      (test_single_entrypoint fromJson vmRun getOutput duration pj ep uuid reg ms).1 =
        .ok { output := "[FAILED] " ++ ep ++
                "\nError: execution did not revert while expect_revert() was specified\n\n" ++
                captureSection t,
              success := TestStatus.FAILURE }) ∧
    (∀ e : CairoRunError, res = .error e →
      e ≠ .VirtualMachine (.CustomHint "skip") →
      e ≠ .VirtualMachine (.CustomHint EXPECT_REVERT_FLAG) →
      (test_single_entrypoint fromJson vmRun getOutput duration pj ep uuid reg ms).1 =
        .ok { output := "[FAILED] " ++ ep ++ "\nError: " ++ debugRepr e ++ "\n\n" ++
                captureSection t,
              success := TestStatus.FAILURE }) := by
  have H := tse_eq fromJson vmRun getOutput duration pj ep uuid reg ms prog hfj
  rw [hvm] at H
  have hflag : EXPECT_REVERT_FLAG ≠ "skip" := by decide
  refine ⟨?_, ?_, ?_, ?_⟩
  · rintro r rfl
    rw [H]
    simp [classify, tailLog, String.append_assoc]
  · rintro rfl
    rw [H]
    simp [classify, tailLog, String.append_empty, String.append_assoc]
  · rintro rfl
    rw [H]
    simp [classify, tailLog, hflag, String.append_empty, String.append_assoc]
  · rintro e rfl hne1 hne2
    rw [H]
    cases e with
    | VirtualMachine ve =>
      cases ve with
      | CustomHint m =>
        have hm1 : m ≠ "skip" := fun hc => hne1 (by rw [hc])
        have hm2 : m ≠ EXPECT_REVERT_FLAG := fun hc => hne2 (by rw [hc])
        simp [classify, tailLog, hm1, hm2, debugRepr, String.append_empty,
          String.append_assoc]
      | OtherVm d =>
        simp [classify, tailLog, debugRepr, String.append_empty, String.append_assoc]
    | OtherRun d =>
      simp [classify, tailLog, debugRepr, String.append_empty, String.append_assoc]

/-- C3 witness: the skip sentinel yields SUCCESS logged as SKIPPED; a
generic VM error yields FAILURE with the diagnostic and the captured
stdout section. -/
theorem vm_outcome_classification_w :
    (test_single_entrypoint fj0 vmSkip0 gOut0 7 () "t" 1 [] 9).1 =
      .ok { output := "[SKIPPED] t\n", success := TestStatus.SUCCESS } ∧
    (test_single_entrypoint fj0 vmFail0 gOut0 7 () "t" 1 [] 9).1 =
      .ok { output := "[FAILED] t\nError: boom\n\n[captured stdout]:\nx",
            success := TestStatus.FAILURE } :=
  ⟨(vm_outcome_classification fj0 vmSkip0 gOut0 7 () "t" 1 [] 9 ()
      (.error (.VirtualMachine (.CustomHint "skip"))) "" rfl rfl).2.1 rfl,
   (vm_outcome_classification fj0 vmFail0 gOut0 7 () "t" 1 [] 9 ()
      (.error (.OtherRun "boom")) "x" rfl rfl).2.2.2
     (.OtherRun "boom") rfl (by decide) (by decide)⟩

/-- C9: each entrypoint execution initializes the buffer of its own
execution id before invoking the VM and drains and clears exactly that
buffer after classification — the registry is returned in its prior state;
the outcome is independent of whatever any other execution left in the
registry (sequential executions never observe each other's captured text);
and the outcome log carries exactly this run's hook text in its
captured-output section, skipped when empty. -/
theorem buffer_isolation {PJ Prog R : Type}
    (fromJson : PJ → String → Except String Prog)
    (vmRun : Prog → Nat → CairoRunResult R × String)
    (getOutput : R → Except String String)
    (duration : Nat) (pj : PJ) (ep : String) (uuid : Nat) (reg : Registry)
    (ms : Nat) (prog : Prog)
    (hfj : fromJson pj ep = .ok prog) :
    (test_single_entrypoint fromJson vmRun getOutput duration pj ep uuid reg ms).2 = reg ∧
    (∀ reg2 : Registry,
      (test_single_entrypoint fromJson vmRun getOutput duration pj ep uuid reg ms).1 =
        (test_single_entrypoint fromJson vmRun getOutput duration pj ep uuid reg2 ms).1) ∧
    (∀ (res : CairoRunResult R) (t : String) (r : TestResult),
      vmRun prog ms = (res, t) →
      (test_single_entrypoint fromJson vmRun getOutput duration pj ep uuid reg ms).1 =
        .ok r →
      r.output = (classify ep duration res).2.2 ++ captureSection t ++
        tailLog getOutput (classify ep duration res).1) := by
  have H := tse_eq fromJson vmRun getOutput duration pj ep uuid reg ms prog hfj
  refine ⟨by rw [H], ?_, ?_⟩
  · intro reg2
    rw [H, tse_eq fromJson vmRun getOutput duration pj ep uuid reg2 ms prog hfj]
  · intro res t r hvm hr
    rw [hvm] at H
    rw [H] at hr
    injection hr with h
    rw [← h]

/-- C9 witness: with a stale foreign entry in the registry, the execution
restores the registry to exactly that prior state and its result is the
same as on an empty registry. -/
theorem buffer_isolation_w :
    (test_single_entrypoint fj0 vmOk0 gOut0 7 () "t" 1 [(5, "old")] 9).2 = [(5, "old")] ∧
    (test_single_entrypoint fj0 vmOk0 gOut0 7 () "t" 1 [(5, "old")] 9).1 =
      (test_single_entrypoint fj0 vmOk0 gOut0 7 () "t" 1 [] 9).1 :=
  ⟨(buffer_isolation fj0 vmOk0 gOut0 7 () "t" 1 [(5, "old")] 9 () rfl).1,
   (buffer_isolation fj0 vmOk0 gOut0 7 () "t" 1 [(5, "old")] 9 () rfl).2.1 []⟩

/-- C6 counterexample: a run whose only file report is Failed still returns
the success value Ok with the default empty TestOutput — the return value of
exec does not aggregate per-file statuses, refuting the claimed overall
status law. -/
theorem exec_returns_default_output_cex :
    execTest (get_cache demoHash (some demoCacheDir))
        (compile_and_list_entrypoints cfId lfOne) rfFail (.ok [srcA]) fsAB =
      .ok (["[FAILED] t1\n"], "") ∧
    rfFail srcA srcA ["t1"] =
      .ok { output := "[FAILED] t1\n", success := .FAILURE } := by
  refine ⟨rfl, rfl⟩

/-- C6 amended: exec processes the discovered files in order and prints one
report per processed file in discovery order, but its returned value is
always Ok carrying the default empty TestOutput, independent of every
per-file status — no overall status is computed. -/
theorem exec_default_output_amended
    (cs : FPath → FS → PRes CompiledCacheFile × FS)
    (cl : Except String CompiledCacheFile → PRes (Option (FPath × FPath × List String)))
    (rf : FPath → FPath → List String → Except String TestResult)
    (files : List FPath) (fs0 : FS)
    (cv : FPath → CompiledCacheFile) (upd : FPath → FS → FS)
    (tri : FPath → FPath × FPath × List String) (res : FPath → TestResult)
    (h1 : ∀ f fs, cs f fs = (.ok (cv f), upd f fs))
    (h2 : ∀ f, cl (.ok (cv f)) = .ok (some (tri f)))
    (h3 : ∀ f, rf (tri f).1 (tri f).2.1 (tri f).2.2 = .ok (res f)) :
    execTest cs cl rf (.ok files) fs0 =
      .ok (files.map (fun f => (res f).output), "") := by
  have h : ∀ (l : List FPath) (fs1 : FS),
      execGo cs cl rf l fs1 = .ok (l.map (fun f => (res f).output)) := by
    intro l
    induction l with
    | nil => intro fs1; rfl
    | cons f rest ih =>
      intro fs1
      rcases htri : tri f with ⟨po, pc, eps⟩
      have h3f := h3 f
      rw [htri] at h3f
      simp only at h3f
      simp [execGo, h1, h2, htri, h3f, ih]
  simp [execTest, h files fs0]

/-- C6 amended witness: two cached files, each with a failing report; exec
prints both reports in order and still returns Ok with the empty output. -/
theorem exec_default_output_amended_w :
    execTest demoCs demoCl demoRf (.ok [["a"], ["b"]]) fsTxt =
      .ok (["out\n", "out\n"], "") := by
  have h := exec_default_output_amended demoCs demoCl demoRf [["a"], ["b"]] fsTxt
    (fun f => { path := f, status := .Cached }) (fun _ fs => fs)
    (fun f => (f, f, ["t"])) (fun _ => { output := "out\n", success := .FAILURE })
    (fun _ _ => rfl) (fun _ => rfl) (fun _ => rfl)
  simpa using h

end CairoFoundry
